import Mathlib

/-! Batch-script launcher stubs: `exe_build/launch.cpp` and `exe_build/launch_console.cpp`.

Both programs consist of a single `main`.  Lines 9-17 of each derive the path of a
sibling `.bat` script from `argv[0]` with `std::string::find_last_of` and
`std::string::substr`; the rest launches that script, through `CreateProcess` in
`launch.cpp` and through `system` in `launch_console.cpp`.

Embedding.
* A `std::string` is a `List Char`, one list element per `char`.
* `size_t` is a `Nat` below `2 ^ 64`; the one addition performed on it
  (`find_last_of(...) + 1`) is reduced modulo `2 ^ 64`, and `std::string::npos` is
  `2 ^ 64 - 1`.
* `substr` throws `std::out_of_range` when the start position exceeds the size, and
  `argv[0]` may be a null pointer when the argument vector is empty, so both
  `main`s return `Except Fault _`.
* The operating system is a record of answers (`OS`); every call `main` makes is
  appended to an effect trace, and the characters written to `std::cerr` are
  collected in a string.
-/

set_option autoImplicit false

/-! ## Strings and `size_t` -/

/-- Contents of a `std::string`: one element per `char`. -/
abbrev CString := List Char

/-- Number of bits of `size_t`. -/
def SIZE_BITS : Nat := 64

/-- `std::string::npos`, the largest `size_t`. -/
def npos : Nat := 2 ^ SIZE_BITS - 1

/-- Ways in which the C++ code can leave its normal control flow. -/
inductive Fault where
  /-- `std::out_of_range`, thrown by `substr` when `pos > size()`. -/
  | out_of_range
  /-- `argv[0]` is a null pointer (empty argument vector). -/
  | null_argv
  deriving DecidableEq, Repr

/-- Index of the last element of the string that occurs in `chars`, if there is one. -/
def lastIndexOf (chars : CString) : CString → Option Nat
  | [] => none
  | c :: cs =>
    match lastIndexOf chars cs with
    | some i => some (i + 1)
    | none => if c ∈ chars then some 0 else none

/-- `str.find_last_of(chars)`: position of the last character of `str` that is one of
`chars`, or `npos` when there is none. -/
def find_last_of (str chars : CString) : Nat :=
  match lastIndexOf chars str with
  | some i => i
  | none => npos

/-- `s.substr(pos, count)`: the characters `[pos, pos + min(count, size() - pos))`;
throws `std::out_of_range` when `pos > size()`.  The one-argument call `s.substr(pos)`
is `substr s pos npos` (default argument). -/
def substr (s : CString) (pos count : Nat) : Except Fault CString :=
  if pos > s.length then .error .out_of_range
  else .ok ((s.drop pos).take (min count (s.length - pos)))

/-- The string variables declared on lines 9-17 of `main`. -/
structure Locals where
  filepath : CString
  directory : CString
  filename : CString
  baseName : CString
  batchFile : CString
  deriving DecidableEq, Repr

/-! ## The environment -/

/-- `EXIT_SUCCESS` of `<cstdlib>`. -/
def EXIT_SUCCESS : Int := 0

/-- `EXIT_FAILURE` of `<cstdlib>`. -/
def EXIT_FAILURE : Int := 1

/-- `STARTF_USESHOWWINDOW` of `<windows.h>`. -/
def STARTF_USESHOWWINDOW : Nat := 0x00000001

/-- `SW_HIDE` of `<windows.h>`. -/
def SW_HIDE : Nat := 0

/-- `CREATE_NO_WINDOW` of `<windows.h>`. -/
def CREATE_NO_WINDOW : Nat := 0x08000000

/-- `INFINITE` of `<windows.h>`. -/
def INFINITE : Nat := 0xFFFFFFFF

/-- `FALSE` of `<windows.h>`. -/
def FALSE : Int := 0

/-- The fields of `STARTUPINFO` that `main` sets after `ZeroMemory` (besides `cb`). -/
structure STARTUPINFO where
  dwFlags : Nat
  wShowWindow : Nat
  deriving DecidableEq, Repr

/-- The handles of `PROCESS_INFORMATION`. -/
structure PROCESS_INFORMATION where
  hProcess : Nat
  hThread : Nat
  deriving DecidableEq, Repr

/-- The arguments of the `CreateProcess` call that are not `NULL`. -/
structure CreateProcessCall where
  lpCommandLine : CString
  bInheritHandles : Int
  dwCreationFlags : Nat
  lpStartupInfo : STARTUPINFO
  deriving DecidableEq, Repr

/-- What a `CreateProcess` call answers: the `BOOL` it returns (zero on failure), the
`PROCESS_INFORMATION` it fills in, and the code a following `GetLastError()` reports. -/
structure CreateProcessResult where
  bSuccess : Int
  piProcInfo : PROCESS_INFORMATION
  lastError : Nat
  deriving DecidableEq, Repr

/-- The operating system as seen by the two programs.  `childExitCode` is the exit code
the launched child ends with; neither program has a call that reads it. -/
structure OS where
  CreateProcess : CreateProcessCall → CreateProcessResult
  childExitCode : Nat
  system : CString → Int

/-- Calls into the operating system, in the order they are made. -/
inductive Effect where
  | CreateProcess (call : CreateProcessCall)
  | GetLastError
  | WaitForSingleObject (hHandle dwMilliseconds : Nat)
  | CloseHandle (hObject : Nat)
  | system (command : CString)
  deriving DecidableEq, Repr

/-- What a run of `main` leaves behind: the returned status, the characters written to
`std::cerr`, and the operating-system calls made. -/
structure Outcome where
  status : Int
  cerr : CString
  trace : List Effect
  deriving DecidableEq, Repr

/-- The command line an effect starts, when it starts one. -/
def Effect.launched : Effect → Option CString
  | .CreateProcess call => some call.lpCommandLine
  | .system command => some command
  | _ => none

/-- The command lines started during a run, in order. -/
def Outcome.launched (out : Outcome) : List CString :=
  out.trace.filterMap Effect.launched

/-- `argv[0]` converted to `std::string`. -/
def argv0 : List CString → Except Fault CString
  | [] => .error .null_argv
  | a :: _ => .ok a

/-! ## `launch.cpp` -/

namespace launch

/-- Lines 9-17 of `main` in `launch.cpp`. -/
def main_paths (filepath : CString) : Except Fault Locals := do
  let directory ← substr filepath 0 (find_last_of filepath "\\/".toList)
  let filename ← substr filepath ((find_last_of filepath "\\/".toList + 1) % 2 ^ SIZE_BITS) npos
  let baseName ← substr filename 0 (find_last_of filename ['.'])
  let batchFile := directory ++ "\\".toList ++ baseName ++ ".bat".toList
  pure { filepath, directory, filename, baseName, batchFile }

/-- Lines 20-40 of `main` in `launch.cpp`: the arguments given to `CreateProcess`. -/
def main_call (batchFile : CString) : CreateProcessCall :=
  { lpCommandLine := batchFile
    bInheritHandles := FALSE
    dwCreationFlags := CREATE_NO_WINDOW
    lpStartupInfo := { dwFlags := 0 ||| STARTF_USESHOWWINDOW, wShowWindow := SW_HIDE } }

/-- The function `main` of `launch.cpp`. -/
def main (os : OS) (argc : Int) (argv : List CString) : Except Fault Outcome := do
  let _ := argc
  let filepath ← argv0 argv
  let l ← main_paths filepath
  let call := main_call l.batchFile
  let r := os.CreateProcess call
  if r.bSuccess = 0 then
    pure { status := EXIT_FAILURE
           cerr := "Error creating process: ".toList ++ Nat.toDigits 10 r.lastError ++ ['\n']
           trace := [.CreateProcess call, .GetLastError] }
  else
    pure { status := EXIT_SUCCESS
           cerr := []
           trace := [.CreateProcess call,
                     .WaitForSingleObject r.piProcInfo.hProcess INFINITE,
                     .CloseHandle r.piProcInfo.hProcess,
                     .CloseHandle r.piProcInfo.hThread] }

end launch

/-! ## `launch_console.cpp` -/

namespace launch_console

/-- Lines 9-17 of `main` in `launch_console.cpp`. -/
def main_paths (filepath : CString) : Except Fault Locals := do
  let directory ← substr filepath 0 (find_last_of filepath "\\/".toList)
  let filename ← substr filepath ((find_last_of filepath "\\/".toList + 1) % 2 ^ SIZE_BITS) npos
  let baseName ← substr filename 0 (find_last_of filename ['.'])
  let batchFile := directory ++ "\\".toList ++ baseName ++ ".bat".toList
  pure { filepath, directory, filename, baseName, batchFile }

/-- The function `main` of `launch_console.cpp`. -/
def main (os : OS) (argc : Int) (argv : List CString) : Except Fault Outcome := do
  let _ := argc
  let filepath ← argv0 argv
  let l ← main_paths filepath
  let command := l.batchFile
  let _ := os.system command
  pure { status := EXIT_SUCCESS, cerr := [], trace := [.system command] }

end launch_console

/-! ## Sample environments -/

/-- An environment in which the script does not exist: `CreateProcess` fails with code
2 (`ERROR_FILE_NOT_FOUND`) and the command interpreter reports status 1. -/
def OS.scriptMissing : OS :=
  { CreateProcess := fun _ =>
      { bSuccess := 0, piProcInfo := { hProcess := 0, hThread := 0 }, lastError := 2 }
    childExitCode := 0
    system := fun _ => 1 }

/-! ## Library facts about `find_last_of` and `substr` -/

theorem lastIndexOf_none (chars s : CString) (h : ∀ c ∈ s, c ∉ chars) :
    lastIndexOf chars s = none := by
  induction s with
  | nil => rfl
  | cons a t ih =>
    have ht : ∀ c ∈ t, c ∉ chars := fun c hc => h c (List.mem_cons_of_mem a hc)
    have ha : a ∉ chars := h a (List.mem_cons_self a t)
    simp [lastIndexOf, ih ht, ha]

theorem lastIndexOf_split (chars d f : CString) (sep : Char) (hsep : sep ∈ chars)
    (hf : ∀ c ∈ f, c ∉ chars) :
    lastIndexOf chars (d ++ sep :: f) = some d.length := by
  induction d with
  | nil => simp [lastIndexOf, lastIndexOf_none chars f hf, hsep]
  | cons a t ih => simp [lastIndexOf, ih]

theorem lastIndexOf_lt (chars s : CString) (i : Nat) (h : lastIndexOf chars s = some i) :
    i < s.length := by
  induction s generalizing i with
  | nil => simp [lastIndexOf] at h
  | cons a t ih =>
    simp only [lastIndexOf] at h
    cases hrec : lastIndexOf chars t with
    | some j =>
      rw [hrec] at h
      simp only [Option.some.injEq] at h
      have := ih j hrec
      simp only [List.length_cons]
      omega
    | none =>
      rw [hrec] at h
      by_cases ha : a ∈ chars
      · simp only [ha, if_true, Option.some.injEq] at h
        simp only [List.length_cons]
        omega
      · simp [ha] at h

theorem find_last_of_none (chars s : CString) (h : ∀ c ∈ s, c ∉ chars) :
    find_last_of s chars = npos := by
  simp [find_last_of, lastIndexOf_none chars s h]

theorem find_last_of_split (chars d f : CString) (sep : Char) (hsep : sep ∈ chars)
    (hf : ∀ c ∈ f, c ∉ chars) :
    find_last_of (d ++ sep :: f) chars = d.length := by
  simp [find_last_of, lastIndexOf_split chars d f sep hsep hf]

theorem npos_succ_wraps : (npos + 1) % 2 ^ SIZE_BITS = 0 := by
  decide

theorem substr_zero_npos (s : CString) (h : s.length < npos) : substr s 0 npos = .ok s := by
  have : min npos s.length = s.length := by omega
  simp [substr, this]

theorem substr_prefix (d t : CString) : substr (d ++ t) 0 d.length = .ok d := by
  simp [substr]

theorem substr_suffix (d f : CString) (sep : Char) (h : (d ++ sep :: f).length < npos) :
    substr (d ++ sep :: f) ((d.length + 1) % 2 ^ SIZE_BITS) npos = .ok f := by
  have hlen : (d ++ sep :: f).length = d.length + 1 + f.length := by
    simp only [List.length_append, List.length_cons]
    omega
  rw [hlen] at h
  have hn : npos + 1 = 2 ^ SIZE_BITS := by decide
  have hmod : (d.length + 1) % 2 ^ SIZE_BITS = d.length + 1 := by
    apply Nat.mod_eq_of_lt
    omega
  have hdrop : List.drop (d.length + 1) (d ++ sep :: f) = f := by
    rw [List.drop_append_eq_append_drop]
    simp
  have hmin : min npos (d.length + 1 + f.length - (d.length + 1)) = f.length := by omega
  simp only [substr, hmod, hlen, hdrop, hmin]
  simp

theorem substr_zero (s : CString) (n : Nat) :
    substr s 0 n = .ok (s.take (min n s.length)) := by
  simp [substr]

theorem substr_after_ok (s chars : CString) :
    ∃ t, substr s ((find_last_of s chars + 1) % 2 ^ SIZE_BITS) npos = .ok t := by
  have hpos : (find_last_of s chars + 1) % 2 ^ SIZE_BITS ≤ s.length := by
    unfold find_last_of
    cases hrec : lastIndexOf chars s with
    | none =>
      show (npos + 1) % 2 ^ SIZE_BITS ≤ s.length
      rw [npos_succ_wraps]
      exact Nat.zero_le _
    | some i =>
      show (i + 1) % 2 ^ SIZE_BITS ≤ s.length
      have hi := lastIndexOf_lt chars s i hrec
      have := Nat.mod_le (i + 1) (2 ^ SIZE_BITS)
      omega
  unfold substr
  rw [if_neg (Nat.not_lt.mpr hpos)]
  exact ⟨_, rfl⟩

theorem substr_after_none (s chars : CString) (h : ∀ c ∈ s, c ∉ chars)
    (hlen : s.length < npos) :
    substr s ((find_last_of s chars + 1) % 2 ^ SIZE_BITS) npos = .ok s := by
  rw [find_last_of_none chars s h, npos_succ_wraps]
  exact substr_zero_npos s hlen

theorem not_mem_separators (c : Char) (h : c ≠ '\\' ∧ c ≠ '/') : c ∉ "\\/".toList := by
  show c ∉ ['\\', '/']
  simp [h.1, h.2]

theorem not_mem_dot (c : Char) (h : c ≠ '.') : c ∉ ['.'] := by
  simp [h]

theorem mem_separators (sep : Char) (h : sep = '\\' ∨ sep = '/') : sep ∈ "\\/".toList := by
  show sep ∈ ['\\', '/']
  rcases h with h | h <;> simp [h]

/-! ## Closed forms of the two `main`s -/

theorem launch.main_paths_of_parts (filepath directory filename baseName : CString)
    (h1 : substr filepath 0 (find_last_of filepath "\\/".toList) = .ok directory)
    (h2 : substr filepath ((find_last_of filepath "\\/".toList + 1) % 2 ^ SIZE_BITS) npos
      = .ok filename)
    (h3 : substr filename 0 (find_last_of filename ['.']) = .ok baseName) :
    launch.main_paths filepath = .ok
      { filepath := filepath, directory := directory, filename := filename,
        baseName := baseName,
        batchFile := directory ++ '\\' :: (baseName ++ ".bat".toList) } := by
  unfold launch.main_paths
  rw [h1, h2]
  show (do
    let baseName ← substr filename 0 (find_last_of filename ['.'])
    pure { filepath := filepath, directory := directory, filename := filename,
           baseName := baseName,
           batchFile := directory ++ "\\".toList ++ baseName ++ ".bat".toList }
      : Except Fault Locals) = _
  rw [h3]
  show Except.ok _ = Except.ok _
  congr 2
  show directory ++ ['\\'] ++ baseName ++ ".bat".toList = _
  simp

theorem launch_console.main_paths_same (filepath : CString) :
    launch_console.main_paths filepath = launch.main_paths filepath := rfl

theorem launch.main_paths_total (filepath : CString) :
    ∃ l, launch.main_paths filepath = .ok l := by
  obtain ⟨filename, h2⟩ := substr_after_ok filepath "\\/".toList
  exact ⟨_, launch.main_paths_of_parts filepath _ filename _ (substr_zero _ _) h2
    (substr_zero _ _)⟩

theorem launch.main_eq (os : OS) (argc : Int) (filepath : CString) (rest : List CString)
    (l : Locals) (h : launch.main_paths filepath = .ok l) :
    launch.main os argc (filepath :: rest) = .ok
      (if (os.CreateProcess (launch.main_call l.batchFile)).bSuccess = 0 then
        { status := EXIT_FAILURE
          cerr := "Error creating process: ".toList ++
            Nat.toDigits 10 (os.CreateProcess (launch.main_call l.batchFile)).lastError ++ ['\n']
          trace := [.CreateProcess (launch.main_call l.batchFile), .GetLastError] }
      else
        { status := EXIT_SUCCESS
          cerr := []
          trace := [.CreateProcess (launch.main_call l.batchFile),
            .WaitForSingleObject
              (os.CreateProcess (launch.main_call l.batchFile)).piProcInfo.hProcess INFINITE,
            .CloseHandle (os.CreateProcess (launch.main_call l.batchFile)).piProcInfo.hProcess,
            .CloseHandle (os.CreateProcess (launch.main_call l.batchFile)).piProcInfo.hThread] }) := by
  unfold launch.main
  simp only [argv0]
  show (do
    let l ← launch.main_paths filepath
    _ : Except Fault Outcome) = _
  rw [h]
  show (if _ then _ else _ : Except Fault Outcome) = _
  split <;> rfl

theorem launch_console.main_console_eq (os : OS) (argc : Int) (filepath : CString)
    (rest : List CString) (l : Locals) (h : launch_console.main_paths filepath = .ok l) :
    launch_console.main os argc (filepath :: rest) = .ok
      { status := EXIT_SUCCESS, cerr := [], trace := [.system l.batchFile] } := by
  unfold launch_console.main
  simp only [argv0]
  show (do
    let l ← launch_console.main_paths filepath
    _ : Except Fault Outcome) = _
  rw [h]
  rfl

theorem launch.main_paths_split (d f baseName : CString) (sep : Char)
    (hsep : sep = '\\' ∨ sep = '/') (hf : ∀ c ∈ f, c ≠ '\\' ∧ c ≠ '/')
    (hlen : (d ++ sep :: f).length < npos)
    (h3 : substr f 0 (find_last_of f ['.']) = .ok baseName) :
    launch.main_paths (d ++ sep :: f) = .ok
      { filepath := d ++ sep :: f, directory := d, filename := f, baseName := baseName,
        batchFile := d ++ '\\' :: (baseName ++ ".bat".toList) } := by
  have hfind : find_last_of (d ++ sep :: f) "\\/".toList = d.length :=
    find_last_of_split _ d f sep (mem_separators sep hsep)
      (fun c hc => not_mem_separators c (hf c hc))
  apply launch.main_paths_of_parts
  · rw [hfind]
    exact substr_prefix d (sep :: f)
  · rw [hfind]
    exact substr_suffix d f sep hlen
  · exact h3

theorem substr_base_dot (b e : CString) (he : ∀ c ∈ e, c ≠ '.') :
    substr (b ++ '.' :: e) 0 (find_last_of (b ++ '.' :: e) ['.']) = .ok b := by
  rw [find_last_of_split ['.'] b e '.' (List.mem_singleton.mpr rfl)
    (fun c hc => not_mem_dot c (he c hc))]
  exact substr_prefix b ('.' :: e)

theorem substr_base_nodot (f : CString) (hf : ∀ c ∈ f, c ≠ '.') (hlen : f.length < npos) :
    substr f 0 (find_last_of f ['.']) = .ok f := by
  rw [find_last_of_none ['.'] f (fun c hc => not_mem_dot c (hf c hc))]
  exact substr_zero_npos f hlen

/-! ## Path derivation -/

/-- C1: when the invocation path is `d`, a separator, `b`, a dot, `e`, where `b` and `e`
hold no separator and `e` no dot (so the separator is the last one and the dot the last
dot after it), lines 9-17 of both `main`s compute directory `d`, file name `b.e`,
base name `b` and script path `d` + backslash + `b` + `.bat`.  The path has a size below
`npos`, as every `std::string` has. -/
theorem C1_path_derivation (d b e : CString) (sep : Char)
    (hsep : sep = '\\' ∨ sep = '/')
    (hb : ∀ c ∈ b, c ≠ '\\' ∧ c ≠ '/')
    (he : ∀ c ∈ e, c ≠ '\\' ∧ c ≠ '/' ∧ c ≠ '.')
    (hlen : (d ++ sep :: (b ++ '.' :: e)).length < npos) :
    launch.main_paths (d ++ sep :: (b ++ '.' :: e)) = .ok
      { filepath := d ++ sep :: (b ++ '.' :: e), directory := d,
        filename := b ++ '.' :: e, baseName := b,
        batchFile := d ++ "\\".toList ++ b ++ ".bat".toList } ∧
    launch_console.main_paths (d ++ sep :: (b ++ '.' :: e)) = .ok
      { filepath := d ++ sep :: (b ++ '.' :: e), directory := d,
        filename := b ++ '.' :: e, baseName := b,
        batchFile := d ++ "\\".toList ++ b ++ ".bat".toList } := by
  have hf : ∀ c ∈ b ++ '.' :: e, c ≠ '\\' ∧ c ≠ '/' := by
    intro c hc
    rcases List.mem_append.mp hc with hc | hc
    · exact hb c hc
    · rcases List.mem_cons.mp hc with hc | hc
      · subst hc
        decide
      · exact ⟨(he c hc).1, (he c hc).2.1⟩
  have key := launch.main_paths_split d (b ++ '.' :: e) b sep hsep hf hlen
    (substr_base_dot b e (fun c hc => (he c hc).2.2))
  have hcat : d ++ "\\".toList ++ b ++ ".bat".toList = d ++ '\\' :: (b ++ ".bat".toList) := by
    show d ++ ['\\'] ++ b ++ ".bat".toList = _
    simp
  rw [hcat]
  exact ⟨key, (launch_console.main_paths_same _).trans key⟩

/-- Witness of C1 at `C:\tools\app.exe` and at `C:\tools\app.v2.exe`. -/
theorem C1_path_derivation_witness :
    (launch.main_paths "C:\\tools\\app.exe".toList = .ok
      { filepath := "C:\\tools\\app.exe".toList, directory := "C:\\tools".toList,
        filename := "app.exe".toList, baseName := "app".toList,
        batchFile := "C:\\tools\\app.bat".toList } ∧
     launch_console.main_paths "C:\\tools\\app.exe".toList = .ok
      { filepath := "C:\\tools\\app.exe".toList, directory := "C:\\tools".toList,
        filename := "app.exe".toList, baseName := "app".toList,
        batchFile := "C:\\tools\\app.bat".toList }) ∧
    (launch.main_paths "C:\\tools\\app.v2.exe".toList = .ok
      { filepath := "C:\\tools\\app.v2.exe".toList, directory := "C:\\tools".toList,
        filename := "app.v2.exe".toList, baseName := "app.v2".toList,
        batchFile := "C:\\tools\\app.v2.bat".toList } ∧
     launch_console.main_paths "C:\\tools\\app.v2.exe".toList = .ok
      { filepath := "C:\\tools\\app.v2.exe".toList, directory := "C:\\tools".toList,
        filename := "app.v2.exe".toList, baseName := "app.v2".toList,
        batchFile := "C:\\tools\\app.v2.bat".toList }) :=
  ⟨C1_path_derivation "C:\\tools".toList "app".toList "exe".toList '\\'
      (by decide) (by decide) (by decide) (by decide),
   C1_path_derivation "C:\\tools".toList "app.v2".toList "exe".toList '\\'
      (by decide) (by decide) (by decide) (by decide)⟩

/-- C4, refuted as stated: the invocation path `app.exe` holds no separator
(`find_last_of` answers `npos`), yet the directory computed by both `main`s is
`app.exe`, not the empty string, and the script path is `app.exe\app.bat`, not
`\app.bat`. -/
theorem C4_no_separator_counterexample :
    find_last_of "app.exe".toList "\\/".toList = npos ∧
    launch.main_paths "app.exe".toList = .ok
      { filepath := "app.exe".toList, directory := "app.exe".toList,
        filename := "app.exe".toList, baseName := "app".toList,
        batchFile := "app.exe\\app.bat".toList } ∧
    launch_console.main_paths "app.exe".toList = .ok
      { filepath := "app.exe".toList, directory := "app.exe".toList,
        filename := "app.exe".toList, baseName := "app".toList,
        batchFile := "app.exe\\app.bat".toList } ∧
    "app.exe".toList ≠ [] ∧
    "app.exe\\app.bat".toList ≠ "\\".toList ++ "app".toList ++ ".bat".toList := by
  refine ⟨rfl, rfl, rfl, ?_, ?_⟩ <;> decide

/-- C4, amended: for an invocation path that holds neither a backslash nor a slash,
`find_last_of` answers `npos`, so `substr(0, npos)` keeps the whole path: the directory
and the file name computed by both `main`s are the invocation path itself, and the
script path is the invocation path + backslash + base name + `.bat`.  The path has a
size below `npos`, as every `std::string` has. -/
theorem C4_no_separator_amended (filepath : CString)
    (hsep : ∀ c ∈ filepath, c ≠ '\\' ∧ c ≠ '/')
    (hlen : filepath.length < npos) :
    ∃ l, launch.main_paths filepath = .ok l ∧ launch_console.main_paths filepath = .ok l ∧
      l.directory = filepath ∧ l.filename = filepath ∧
      l.batchFile = filepath ++ "\\".toList ++ l.baseName ++ ".bat".toList := by
  have hno : ∀ c ∈ filepath, c ∉ "\\/".toList := fun c hc => not_mem_separators c (hsep c hc)
  have h1 : substr filepath 0 (find_last_of filepath "\\/".toList) = .ok filepath := by
    rw [find_last_of_none _ filepath hno]
    exact substr_zero_npos filepath hlen
  have h2 := substr_after_none filepath "\\/".toList hno hlen
  have key := launch.main_paths_of_parts filepath filepath filepath _ h1 h2 (substr_zero _ _)
  refine ⟨_, key, (launch_console.main_paths_same _).trans key, rfl, rfl, ?_⟩
  show _ = filepath ++ ['\\'] ++ _ ++ ".bat".toList
  simp

/-- Witness of the amended C4 at `app.exe`. -/
theorem C4_no_separator_amended_witness :
    ∃ l, launch.main_paths "app.exe".toList = .ok l ∧
      launch_console.main_paths "app.exe".toList = .ok l ∧
      l.directory = "app.exe".toList ∧ l.filename = "app.exe".toList ∧
      l.batchFile = "app.exe".toList ++ "\\".toList ++ l.baseName ++ ".bat".toList :=
  C4_no_separator_amended "app.exe".toList (by decide) (by decide)

/-- C5: when the file name `f` (the characters after the last separator) holds no dot,
both `main`s compute base name `f`, unchanged.  After a directory `d` and a separator
the script path is `d` + backslash + `f` + `.bat`, whatever dots `d` holds; for a path
that is the bare file name the script path is again directory + backslash + `f` +
`.bat`, with the directory that `main` computed.  Paths have a size below `npos`, as
every `std::string` has. -/
theorem C5_no_dot (f : CString)
    (hf : ∀ c ∈ f, c ≠ '\\' ∧ c ≠ '/' ∧ c ≠ '.') :
    (∀ (d : CString) (sep : Char), (sep = '\\' ∨ sep = '/') →
      (d ++ sep :: f).length < npos →
      launch.main_paths (d ++ sep :: f) = .ok
        { filepath := d ++ sep :: f, directory := d, filename := f, baseName := f,
          batchFile := d ++ "\\".toList ++ f ++ ".bat".toList } ∧
      launch_console.main_paths (d ++ sep :: f) = .ok
        { filepath := d ++ sep :: f, directory := d, filename := f, baseName := f,
          batchFile := d ++ "\\".toList ++ f ++ ".bat".toList }) ∧
    (f.length < npos →
      ∃ l, launch.main_paths f = .ok l ∧ launch_console.main_paths f = .ok l ∧
        l.filename = f ∧ l.baseName = f ∧
        l.batchFile = l.directory ++ "\\".toList ++ f ++ ".bat".toList) := by
  have hcat : ∀ d : CString,
      d ++ "\\".toList ++ f ++ ".bat".toList = d ++ '\\' :: (f ++ ".bat".toList) := by
    intro d
    show d ++ ['\\'] ++ f ++ ".bat".toList = _
    simp
  have hdot : ∀ c ∈ f, c ≠ '.' := fun c hc => (hf c hc).2.2
  constructor
  · intro d sep hsep hlen
    have hflen : f.length < npos := by
      simp only [List.length_append, List.length_cons] at hlen
      omega
    have key := launch.main_paths_split d f f sep hsep
      (fun c hc => ⟨(hf c hc).1, (hf c hc).2.1⟩) hlen (substr_base_nodot f hdot hflen)
    rw [hcat]
    exact ⟨key, (launch_console.main_paths_same _).trans key⟩
  · intro hlen
    have hno : ∀ c ∈ f, c ∉ "\\/".toList :=
      fun c hc => not_mem_separators c ⟨(hf c hc).1, (hf c hc).2.1⟩
    have h1 : substr f 0 (find_last_of f "\\/".toList) = .ok f := by
      rw [find_last_of_none _ f hno]
      exact substr_zero_npos f hlen
    have key := launch.main_paths_of_parts f f f f h1
      (substr_after_none f "\\/".toList hno hlen) (substr_base_nodot f hdot hlen)
    refine ⟨_, key, (launch_console.main_paths_same _).trans key, rfl, rfl, ?_⟩
    show _ = f ++ ['\\'] ++ f ++ ".bat".toList
    simp

/-- Witness of C5 at `C:\tools.v1\app`, whose only dot is in the directory part. -/
theorem C5_no_dot_witness :
    launch.main_paths "C:\\tools.v1\\app".toList = .ok
      { filepath := "C:\\tools.v1\\app".toList, directory := "C:\\tools.v1".toList,
        filename := "app".toList, baseName := "app".toList,
        batchFile := "C:\\tools.v1\\app.bat".toList } ∧
    launch_console.main_paths "C:\\tools.v1\\app".toList = .ok
      { filepath := "C:\\tools.v1\\app".toList, directory := "C:\\tools.v1".toList,
        filename := "app".toList, baseName := "app".toList,
        batchFile := "C:\\tools.v1\\app.bat".toList } :=
  (C5_no_dot "app".toList (by decide)).1 "C:\\tools.v1".toList '\\' (by decide) (by decide)

/-- C9: when the last separator of the invocation path is a backslash and a dot follows
it, the script path computed by both `main`s is the invocation path cut just before its
last dot, with `.bat` appended: the path is `p.e` with `p` = `d` + backslash + `b` and
no dot or separator in `e`, and the script path is `p.bat`.  With a slash as last
separator the slash is replaced by a backslash, as `C:/tools/app.exe` shows.  The path
has a size below `npos`, as every `std::string` has. -/
theorem C9_extension_replaced_in_place (d b e : CString)
    (hb : ∀ c ∈ b, c ≠ '\\' ∧ c ≠ '/')
    (he : ∀ c ∈ e, c ≠ '\\' ∧ c ≠ '/' ∧ c ≠ '.')
    (hlen : ((d ++ '\\' :: b) ++ '.' :: e).length < npos) :
    (∃ l, launch.main_paths ((d ++ '\\' :: b) ++ '.' :: e) = .ok l ∧
      launch_console.main_paths ((d ++ '\\' :: b) ++ '.' :: e) = .ok l ∧
      l.batchFile = (d ++ '\\' :: b) ++ ".bat".toList) ∧
    (∃ l, launch.main_paths "C:/tools/app.exe".toList = .ok l ∧
      launch_console.main_paths "C:/tools/app.exe".toList = .ok l ∧
      l.batchFile = "C:/tools\\app.bat".toList ∧
      l.batchFile ≠ "C:/tools/app.bat".toList) := by
  have hf : ∀ c ∈ b ++ '.' :: e, c ≠ '\\' ∧ c ≠ '/' := by
    intro c hc
    rcases List.mem_append.mp hc with hc | hc
    · exact hb c hc
    · rcases List.mem_cons.mp hc with hc | hc
      · subst hc
        decide
      · exact ⟨(he c hc).1, (he c hc).2.1⟩
  have hassoc : (d ++ '\\' :: b) ++ '.' :: e = d ++ '\\' :: (b ++ '.' :: e) := by simp
  rw [hassoc] at hlen ⊢
  have key := launch.main_paths_split d (b ++ '.' :: e) b '\\' (Or.inl rfl) hf hlen
    (substr_base_dot b e (fun c hc => (he c hc).2.2))
  refine ⟨⟨_, key, (launch_console.main_paths_same _).trans key, ?_⟩, ⟨_, rfl, rfl, rfl, ?_⟩⟩
  · simp
  · decide

/-- Witness of C9 at `C:\tools\app.v2.exe`. -/
theorem C9_extension_replaced_in_place_witness :
    ∃ l, launch.main_paths "C:\\tools\\app.v2.exe".toList = .ok l ∧
      launch_console.main_paths "C:\\tools\\app.v2.exe".toList = .ok l ∧
      l.batchFile = "C:\\tools\\app.v2.bat".toList :=
  (C9_extension_replaced_in_place "C:\\tools".toList "app.v2".toList "exe".toList
    (by decide) (by decide) (by decide)).1

/-! ## Exit status, diagnostics and effect order -/

/-- C2: for every invocation path, `main` of `launch.cpp` returns, and it returns
`EXIT_FAILURE` (non-zero) exactly when `CreateProcess` fails; when creation succeeds it
returns `EXIT_SUCCESS`; and the outcome is the same whatever exit code the child ends
with. -/
theorem C2_hidden_exit_status (os : OS) (argc : Int) (filepath : CString)
    (rest : List CString) :
    ∃ l out, launch.main_paths filepath = .ok l ∧
      launch.main os argc (filepath :: rest) = .ok out ∧
      (out.status = EXIT_FAILURE ↔
        (os.CreateProcess (launch.main_call l.batchFile)).bSuccess = 0) ∧
      ((os.CreateProcess (launch.main_call l.batchFile)).bSuccess ≠ 0 →
        out.status = EXIT_SUCCESS) ∧
      (∀ code : Nat,
        launch.main { os with childExitCode := code } argc (filepath :: rest) = .ok out) ∧
      EXIT_FAILURE ≠ 0 ∧ EXIT_SUCCESS = 0 := by
  obtain ⟨l, hl⟩ := launch.main_paths_total filepath
  refine ⟨l, _, hl, launch.main_eq os argc filepath rest l hl, ?_, ?_, ?_, ?_, ?_⟩
  · by_cases hb : (os.CreateProcess (launch.main_call l.batchFile)).bSuccess = 0
    · simp [hb]
    · simp [hb, EXIT_SUCCESS, EXIT_FAILURE]
  · intro hb
    simp [hb]
  · intro code
    exact launch.main_eq { os with childExitCode := code } argc filepath rest l hl
  · decide
  · rfl

/-- C3: for every invocation path and every answer of `system`, `main` of
`launch_console.cpp` returns `EXIT_SUCCESS`, which is 0, writes nothing to `std::cerr`,
and its only call is `system` on the script path. -/
theorem C3_console_exit_status (os : OS) (argc : Int) (filepath : CString)
    (rest : List CString) :
    ∃ l out, launch_console.main_paths filepath = .ok l ∧
      launch_console.main os argc (filepath :: rest) = .ok out ∧
      out.status = EXIT_SUCCESS ∧ EXIT_SUCCESS = 0 ∧ out.cerr = [] ∧
      out.trace = [.system l.batchFile] ∧
      (∀ answer : CString → Int,
        launch_console.main { os with system := answer } argc (filepath :: rest) = .ok out) := by
  obtain ⟨l, hl⟩ := launch.main_paths_total filepath
  have hl' : launch_console.main_paths filepath = .ok l :=
    (launch_console.main_paths_same filepath).trans hl
  exact ⟨l, _, hl', launch_console.main_console_eq os argc filepath rest l hl', rfl, rfl, rfl, rfl,
    fun answer => launch_console.main_console_eq { os with system := answer } argc filepath rest l hl'⟩

/-- C6: `main` of `launch.cpp` writes to `std::cerr` exactly when `CreateProcess` fails;
what it writes then is `Error creating process: `, the decimal digits of the code
reported by `GetLastError()`, and a newline; when creation succeeds it writes nothing. -/
theorem C6_hidden_diagnostic (os : OS) (argc : Int) (filepath : CString)
    (rest : List CString) :
    ∃ l out, launch.main_paths filepath = .ok l ∧
      launch.main os argc (filepath :: rest) = .ok out ∧
      (out.cerr ≠ [] ↔ (os.CreateProcess (launch.main_call l.batchFile)).bSuccess = 0) ∧
      ((os.CreateProcess (launch.main_call l.batchFile)).bSuccess = 0 →
        out.cerr = "Error creating process: ".toList ++
          (Nat.repr (os.CreateProcess (launch.main_call l.batchFile)).lastError).toList ++
          "\n".toList) ∧
      ((os.CreateProcess (launch.main_call l.batchFile)).bSuccess ≠ 0 → out.cerr = []) := by
  obtain ⟨l, hl⟩ := launch.main_paths_total filepath
  refine ⟨l, _, hl, launch.main_eq os argc filepath rest l hl, ?_, ?_, ?_⟩
  · by_cases hb : (os.CreateProcess (launch.main_call l.batchFile)).bSuccess = 0
    · simp [hb]
    · simp [hb]
  · intro hb
    rw [if_pos hb]
    rfl
  · intro hb
    rw [if_neg hb]

/-- C7: when `CreateProcess` succeeds, the calls `main` of `launch.cpp` makes before it
returns `EXIT_SUCCESS` are, in order, `CreateProcess` on the script path,
`WaitForSingleObject` on the process handle with `INFINITE`, `CloseHandle` on the process
handle, `CloseHandle` on the thread handle; when it fails, no wait and no `CloseHandle`
is made; and `EXIT_SUCCESS` is never returned without the wait in the trace. -/
theorem C7_hidden_wait_order (os : OS) (argc : Int) (filepath : CString)
    (rest : List CString) :
    ∃ l out, launch.main_paths filepath = .ok l ∧
      launch.main os argc (filepath :: rest) = .ok out ∧
      ((os.CreateProcess (launch.main_call l.batchFile)).bSuccess ≠ 0 →
        out.status = EXIT_SUCCESS ∧
        out.trace =
          [.CreateProcess (launch.main_call l.batchFile),
           .WaitForSingleObject
              (os.CreateProcess (launch.main_call l.batchFile)).piProcInfo.hProcess INFINITE,
           .CloseHandle (os.CreateProcess (launch.main_call l.batchFile)).piProcInfo.hProcess,
           .CloseHandle (os.CreateProcess (launch.main_call l.batchFile)).piProcInfo.hThread]) ∧
      ((os.CreateProcess (launch.main_call l.batchFile)).bSuccess = 0 →
        ∀ e ∈ out.trace, ∀ h ms : Nat,
          e ≠ .WaitForSingleObject h ms ∧ e ≠ .CloseHandle h) ∧
      (out.status = EXIT_SUCCESS →
        Effect.WaitForSingleObject
          (os.CreateProcess (launch.main_call l.batchFile)).piProcInfo.hProcess INFINITE
            ∈ out.trace) ∧
      (launch.main_call l.batchFile).lpCommandLine = l.batchFile := by
  obtain ⟨l, hl⟩ := launch.main_paths_total filepath
  refine ⟨l, _, hl, launch.main_eq os argc filepath rest l hl, ?_, ?_, ?_, rfl⟩
  · intro hb
    rw [if_neg hb]
    exact ⟨rfl, rfl⟩
  · intro hb
    rw [if_pos hb]
    intro e he h ms
    simp only [List.mem_cons, List.mem_singleton, List.not_mem_nil, or_false] at he
    rcases he with he | he <;> subst he <;> simp
  · by_cases hb : (os.CreateProcess (launch.main_call l.batchFile)).bSuccess = 0
    · rw [if_pos hb]
      intro hs
      have hne : EXIT_FAILURE ≠ EXIT_SUCCESS := by decide
      exact absurd hs hne
    · rw [if_neg hb]
      intro _
      simp

/-! ## What is launched -/

/-- C8: when two argument vectors agree on `argv[0]`, each `main` yields the same outcome
(status, `std::cerr` text and calls, so also the launched command) for both, whatever
`argc` and the further arguments are; and the one command each `main` launches is
exactly the script path derived from `argv[0]`. -/
theorem C8_no_argument_forwarding (os : OS) (argc argc' : Int) (argv argv' : List CString)
    (h : argv.head? = argv'.head?) :
    launch.main os argc argv = launch.main os argc' argv' ∧
    launch_console.main os argc argv = launch_console.main os argc' argv' ∧
    (∀ filepath, argv.head? = some filepath →
      ∃ l out, launch.main_paths filepath = .ok l ∧
        launch.main os argc argv = .ok out ∧ out.launched = [l.batchFile]) ∧
    (∀ filepath, argv.head? = some filepath →
      ∃ l out, launch_console.main_paths filepath = .ok l ∧
        launch_console.main os argc argv = .ok out ∧ out.launched = [l.batchFile]) := by
  refine ⟨?_, ?_, ?_, ?_⟩
  · cases argv with
    | nil =>
      cases argv' with
      | nil => rfl
      | cons a' t' => simp at h
    | cons a t =>
      cases argv' with
      | nil => simp at h
      | cons a' t' =>
        simp only [List.head?_cons, Option.some.injEq] at h
        subst h
        obtain ⟨l, hl⟩ := launch.main_paths_total a
        rw [launch.main_eq os argc a t l hl, launch.main_eq os argc' a t' l hl]
  · cases argv with
    | nil =>
      cases argv' with
      | nil => rfl
      | cons a' t' => simp at h
    | cons a t =>
      cases argv' with
      | nil => simp at h
      | cons a' t' =>
        simp only [List.head?_cons, Option.some.injEq] at h
        subst h
        obtain ⟨l, hl⟩ := launch.main_paths_total a
        have hl' : launch_console.main_paths a = .ok l :=
          (launch_console.main_paths_same a).trans hl
        rw [launch_console.main_console_eq os argc a t l hl',
          launch_console.main_console_eq os argc' a t' l hl']
  · intro filepath hfp
    cases argv with
    | nil => simp at hfp
    | cons a t =>
      simp only [List.head?_cons, Option.some.injEq] at hfp
      subst hfp
      obtain ⟨l, hl⟩ := launch.main_paths_total a
      refine ⟨l, _, hl, launch.main_eq os argc a t l hl, ?_⟩
      by_cases hb : (os.CreateProcess (launch.main_call l.batchFile)).bSuccess = 0
      · rw [if_pos hb]
        rfl
      · rw [if_neg hb]
        rfl
  · intro filepath hfp
    cases argv with
    | nil => simp at hfp
    | cons a t =>
      simp only [List.head?_cons, Option.some.injEq] at hfp
      subst hfp
      obtain ⟨l, hl⟩ := launch.main_paths_total a
      have hl' : launch_console.main_paths a = .ok l :=
        (launch_console.main_paths_same a).trans hl
      exact ⟨l, _, hl', launch_console.main_console_eq os argc a t l hl', rfl⟩

/-- Witness of C8: `C:\tools\app.exe` started with two extra arguments and with none,
in an environment where the script does not exist. -/
theorem C8_no_argument_forwarding_witness :
    launch.main OS.scriptMissing 3
        ["C:\\tools\\app.exe".toList, "--flag".toList, "x y".toList] =
      launch.main OS.scriptMissing 1 ["C:\\tools\\app.exe".toList] ∧
    launch_console.main OS.scriptMissing 3
        ["C:\\tools\\app.exe".toList, "--flag".toList, "x y".toList] =
      launch_console.main OS.scriptMissing 1 ["C:\\tools\\app.exe".toList] :=
  ⟨(C8_no_argument_forwarding OS.scriptMissing 3 1
      ["C:\\tools\\app.exe".toList, "--flag".toList, "x y".toList]
      ["C:\\tools\\app.exe".toList] rfl).1,
   (C8_no_argument_forwarding OS.scriptMissing 3 1
      ["C:\\tools\\app.exe".toList, "--flag".toList, "x y".toList]
      ["C:\\tools\\app.exe".toList] rfl).2.1⟩

/-- C10: for every invocation path, lines 9-17 of the two `main`s compute the same
strings, both `main`s return, and the one command line `launch.cpp` hands to
`CreateProcess` is the one `launch_console.cpp` hands to `system`. -/
theorem C10_variants_launch_same_script (os os' : OS) (argc argc' : Int)
    (filepath : CString) (rest rest' : List CString) :
    launch.main_paths filepath = launch_console.main_paths filepath ∧
    ∃ cmd out out', launch.main os argc (filepath :: rest) = .ok out ∧
      launch_console.main os' argc' (filepath :: rest') = .ok out' ∧
      out.launched = [cmd] ∧ out'.launched = [cmd] := by
  obtain ⟨l, hl⟩ := launch.main_paths_total filepath
  have hl' : launch_console.main_paths filepath = .ok l :=
    (launch_console.main_paths_same filepath).trans hl
  refine ⟨hl.trans hl'.symm, l.batchFile, _, _, launch.main_eq os argc filepath rest l hl,
    launch_console.main_console_eq os' argc' filepath rest' l hl', ?_, rfl⟩
  by_cases hb : (os.CreateProcess (launch.main_call l.batchFile)).bSuccess = 0
  · rw [if_pos hb]
    rfl
  · rw [if_neg hb]
    rfl
